import Mathlib

/-!
Verification of the hallr Blender-addon FFI glue
(`src/blender_addon/hallr_ffi_utils.py`).

The file shallowly embeds the Python code: pure helpers become Lean
functions, raised `HallrException`s become `Except` errors, and the
stateful part of `_process_mesh_with_rust` (object creation, the
try/finally that frees the native result, scene mutation) becomes an
explicit state-passing function.  Strings crossing the FFI boundary are
encoded as UTF-8 byte lists (`List Nat`, each byte < 256), mirroring
Python's `str.encode('utf-8')` / `bytes.decode('utf-8')`.
-/

namespace Hallr

/-! ### UTF-8 codec

Python encodes every config key/value with `.encode('utf-8')` before the
native call and decodes returned C strings with `.decode('utf-8')`.
We model the runtime codec by the standard UTF-8 algorithm over
codepoints (`Nat`). -/

/-- UTF-8 encoding of a single Unicode codepoint (standard algorithm,
as performed by Python's `str.encode('utf-8')`). -/
def utf8EncodeCp (c : Nat) : List Nat :=
  if c < 0x80 then [c]
  else if c < 0x800 then [0xC0 + c / 0x40, 0x80 + c % 0x40]
  else if c < 0x10000 then
    [0xE0 + c / 0x1000, 0x80 + (c / 0x40) % 0x40, 0x80 + c % 0x40]
  else
    [0xF0 + c / 0x40000, 0x80 + (c / 0x1000) % 0x40,
     0x80 + (c / 0x40) % 0x40, 0x80 + c % 0x40]

/-- Decode a single UTF-8 sequence whose lead byte is `b` and whose
following bytes are the front of `rest`; returns the codepoint and the
unconsumed remainder, or `none` on a malformed sequence. -/
def utf8DecodeOne (b : Nat) (rest : List Nat) : Option (Nat × List Nat) :=
  if b < 0x80 then some (b, rest)
  else if b < 0xC0 then none
  else if b < 0xE0 then
    match rest with
    | b1 :: rest1 =>
      if 0x80 ≤ b1 ∧ b1 < 0xC0 then
        some ((b - 0xC0) * 0x40 + (b1 - 0x80), rest1)
      else none
    | [] => none
  else if b < 0xF0 then
    match rest with
    | b1 :: b2 :: rest2 =>
      if (0x80 ≤ b1 ∧ b1 < 0xC0) ∧ (0x80 ≤ b2 ∧ b2 < 0xC0) then
        some ((b - 0xE0) * 0x1000 + (b1 - 0x80) * 0x40 + (b2 - 0x80), rest2)
      else none
    | _ => none
  else if b < 0xF8 then
    match rest with
    | b1 :: b2 :: b3 :: rest3 =>
      if (0x80 ≤ b1 ∧ b1 < 0xC0) ∧ (0x80 ≤ b2 ∧ b2 < 0xC0) ∧
         (0x80 ≤ b3 ∧ b3 < 0xC0) then
        some ((b - 0xF0) * 0x40000 + (b1 - 0x80) * 0x1000 +
              (b2 - 0x80) * 0x40 + (b3 - 0x80), rest3)
      else none
    | _ => none
  else none

theorem utf8DecodeOne_length {b : Nat} {rest : List Nat} {c : Nat}
    {rem : List Nat} (h : utf8DecodeOne b rest = some (c, rem)) :
    rem.length ≤ rest.length := by
  unfold utf8DecodeOne at h
  repeat' split at h
  any_goals exact Option.noConfusion h
  all_goals simp only [Option.some.injEq, Prod.mk.injEq] at h
  all_goals rw [← h.2]
  all_goals simp
  all_goals omega

/-- Fuel-indexed UTF-8 stream decoder; the fuel only serves to make the
recursion structural, `utf8DecodeAux_fuel` shows any fuel at least the
stream length gives the same answer. -/
def utf8DecodeAux : Nat → List Nat → Option (List Nat)
  | _, [] => some []
  | 0, _ :: _ => none
  | fuel + 1, b :: rest =>
    match utf8DecodeOne b rest with
    | none => none
    | some (c, rem) => (utf8DecodeAux fuel rem).map (c :: ·)

/-- UTF-8 decoding of a byte stream into codepoints (standard algorithm,
as performed by Python's `bytes.decode('utf-8')`); `none` on a malformed
stream (Python raises `UnicodeDecodeError`). -/
def utf8Decode (bs : List Nat) : Option (List Nat) :=
  utf8DecodeAux bs.length bs

theorem utf8DecodeAux_fuel (fuel1 : Nat) :
    ∀ (fuel2 : Nat) (bs : List Nat), bs.length ≤ fuel1 →
      bs.length ≤ fuel2 → utf8DecodeAux fuel1 bs = utf8DecodeAux fuel2 bs := by
  induction fuel1 with
  | zero =>
    intro fuel2 bs h1 _
    cases bs with
    | nil => cases fuel2 <;> rfl
    | cons b rest => simp at h1
  | succ f ih =>
    intro fuel2 bs h1 h2
    cases bs with
    | nil => cases fuel2 <;> rfl
    | cons b rest =>
      cases fuel2 with
      | zero => simp at h2
      | succ f2 =>
        simp only [utf8DecodeAux]
        cases hdec : utf8DecodeOne b rest with
        | none => rfl
        | some pr =>
          obtain ⟨c, rem⟩ := pr
          have hlen := utf8DecodeOne_length hdec
          simp only [List.length_cons] at h1 h2
          show (utf8DecodeAux f rem).map (c :: ·)
              = (utf8DecodeAux f2 rem).map (c :: ·)
          rw [ih f2 rem (by omega) (by omega)]

/-- UTF-8 encoding of a whole string: concatenation of the encodings of
its characters' codepoints. -/
def utf8EncodeStr (s : String) : List Nat :=
  (s.data.map (fun c => utf8EncodeCp c.toNat)).flatten

/-- UTF-8 decoding of a byte stream into a string. -/
def utf8DecodeStr (bs : List Nat) : Option String :=
  (utf8Decode bs).map (fun cps => ⟨cps.map Char.ofNat⟩)

theorem utf8DecodeOne_encodeCp (c : Nat) (hc : c < 0x110000)
    (rest : List Nat) :
    ∃ b tl, utf8EncodeCp c = b :: tl ∧
      utf8DecodeOne b (tl ++ rest) = some (c, rest) := by
  unfold utf8EncodeCp
  by_cases h1 : c < 0x80
  · refine ⟨c, [], by simp [h1], ?_⟩
    unfold utf8DecodeOne
    simp [h1]
  · by_cases h2 : c < 0x800
    · refine ⟨0xC0 + c / 0x40, [0x80 + c % 0x40], by simp [h1, h2], ?_⟩
      unfold utf8DecodeOne
      have hb0 : ¬ (0xC0 + c / 0x40 < 0x80) := by omega
      have hb0' : ¬ (0xC0 + c / 0x40 < 0xC0) := by omega
      have hb0'' : 0xC0 + c / 0x40 < 0xE0 := by omega
      have hb1 : 0x80 ≤ 0x80 + c % 0x40 ∧ 0x80 + c % 0x40 < 0xC0 := by omega
      simp only [List.cons_append, List.nil_append, if_neg hb0, if_neg hb0',
        if_pos hb0'', if_pos hb1]
      have hv : (0xC0 + c / 0x40 - 0xC0) * 0x40 + (0x80 + c % 0x40 - 0x80)
          = c := by omega
      rw [hv]
    · by_cases h3 : c < 0x10000
      · refine ⟨0xE0 + c / 0x1000,
          [0x80 + (c / 0x40) % 0x40, 0x80 + c % 0x40],
          by simp [h1, h2, h3], ?_⟩
        unfold utf8DecodeOne
        have hb0 : ¬ (0xE0 + c / 0x1000 < 0x80) := by omega
        have hb0' : ¬ (0xE0 + c / 0x1000 < 0xC0) := by omega
        have hb0'' : ¬ (0xE0 + c / 0x1000 < 0xE0) := by omega
        have hb0''' : 0xE0 + c / 0x1000 < 0xF0 := by omega
        have hb1 : (0x80 ≤ 0x80 + (c / 0x40) % 0x40 ∧
            0x80 + (c / 0x40) % 0x40 < 0xC0) ∧
            (0x80 ≤ 0x80 + c % 0x40 ∧ 0x80 + c % 0x40 < 0xC0) := by omega
        simp only [List.cons_append, List.nil_append, if_neg hb0, if_neg hb0',
          if_neg hb0'', if_pos hb0''', if_pos hb1]
        have hv : (0xE0 + c / 0x1000 - 0xE0) * 0x1000 +
            (0x80 + (c / 0x40) % 0x40 - 0x80) * 0x40 +
            (0x80 + c % 0x40 - 0x80) = c := by omega
        rw [hv]
      · refine ⟨0xF0 + c / 0x40000,
          [0x80 + (c / 0x1000) % 0x40, 0x80 + (c / 0x40) % 0x40,
           0x80 + c % 0x40],
          by simp [h1, h2, h3], ?_⟩
        unfold utf8DecodeOne
        have hb0 : ¬ (0xF0 + c / 0x40000 < 0x80) := by omega
        have hb0' : ¬ (0xF0 + c / 0x40000 < 0xC0) := by omega
        have hb0'' : ¬ (0xF0 + c / 0x40000 < 0xE0) := by omega
        have hb0''' : ¬ (0xF0 + c / 0x40000 < 0xF0) := by omega
        have hb0'''' : 0xF0 + c / 0x40000 < 0xF8 := by omega
        have hb1 : (0x80 ≤ 0x80 + (c / 0x1000) % 0x40 ∧
            0x80 + (c / 0x1000) % 0x40 < 0xC0) ∧
            (0x80 ≤ 0x80 + (c / 0x40) % 0x40 ∧
            0x80 + (c / 0x40) % 0x40 < 0xC0) ∧
            (0x80 ≤ 0x80 + c % 0x40 ∧ 0x80 + c % 0x40 < 0xC0) := by omega
        simp only [List.cons_append, List.nil_append, if_neg hb0, if_neg hb0',
          if_neg hb0'', if_neg hb0''', if_pos hb0'''', if_pos hb1]
        have hv : (0xF0 + c / 0x40000 - 0xF0) * 0x40000 +
            (0x80 + (c / 0x1000) % 0x40 - 0x80) * 0x1000 +
            (0x80 + (c / 0x40) % 0x40 - 0x80) * 0x40 +
            (0x80 + c % 0x40 - 0x80) = c := by omega
        rw [hv]

theorem utf8Decode_encodeCp (c : Nat) (hc : c < 0x110000) (rest : List Nat) :
    utf8Decode (utf8EncodeCp c ++ rest) = (utf8Decode rest).map (c :: ·) := by
  obtain ⟨b, tl, henc, hdec⟩ := utf8DecodeOne_encodeCp c hc rest
  rw [henc]
  show utf8Decode (b :: (tl ++ rest)) = (utf8Decode rest).map (c :: ·)
  unfold utf8Decode
  simp only [List.length_cons, utf8DecodeAux, hdec]
  rw [utf8DecodeAux_fuel (tl ++ rest).length rest.length rest (by simp) le_rfl]

theorem utf8Decode_encodeStr_chars (cs : List Char) (rest : List Nat) :
    utf8Decode ((cs.map (fun c => utf8EncodeCp c.toNat)).flatten ++ rest)
      = (utf8Decode rest).map (cs.map Char.toNat ++ ·) := by
  induction cs with
  | nil => simp
  | cons c cs ih =>
    have hc : c.toNat < 0x110000 := by
      have := c.valid
      rcases this with h | ⟨_, h⟩
      · have : c.val.toNat < 55296 := h
        simp only [Char.toNat]; omega
      · have : c.val.toNat < 1114112 := h
        simp only [Char.toNat]; omega
    simp only [List.map_cons, List.flatten_cons, List.append_assoc]
    rw [utf8Decode_encodeCp c.toNat hc, ih]
    cases utf8Decode rest <;> simp

theorem utf8DecodeStr_encodeStr (s : String) :
    utf8DecodeStr (utf8EncodeStr s) = some s := by
  obtain ⟨data⟩ := s
  unfold utf8DecodeStr utf8EncodeStr
  have h := utf8Decode_encodeStr_chars data []
  rw [List.append_nil] at h
  show (utf8Decode ((data.map fun c => utf8EncodeCp c.toNat).flatten)).map
      (fun cps => String.mk (cps.map Char.ofNat)) = some ⟨data⟩
  rw [h]
  show (Option.map (data.map Char.toNat ++ ·) (some [])).map
      (fun cps => String.mk (cps.map Char.ofNat)) = some ⟨data⟩
  simp only [Option.map_some', List.append_nil, List.map_map]
  clear h
  have hmap : List.map (Char.ofNat ∘ Char.toNat) data = data := by
    induction data with
    | nil => rfl
    | cons c cs ih =>
      simp only [List.map_cons, Function.comp_apply, Char.ofNat_toNat, ih]
  rw [hmap]

/-! ### Data model

`hallr_ffi_utils.py` reads Blender meshes through `mesh.polygons` (each a
list of vertex indices, the mesh loops being their concatenation) and
`mesh.edges` (pairs of vertex indices).  Vertex coordinates never affect
control flow, so a mesh is modelled by its vertex count and topology. -/

/-- A Blender mesh as seen by the FFI glue. -/
structure BMesh where
  numVertices : Nat
  faces : List (List Nat)
  edges : List (Nat × Nat)
deriving Repr, DecidableEq

/-- Exceptions raised by the Python glue: `HallrException(msg)` and the
runtime `UnicodeDecodeError` from `bytes.decode('utf-8')`. -/
inductive PyErr where
  | hallr (msg : String)
  | unicode
deriving Repr, DecidableEq

/-- `MeshFormat.TRIANGULATED` in `hallr_ffi_utils.py`. -/
def MeshFormat.TRIANGULATED : String := "△"

/-- `MeshFormat.LINE_WINDOWS` in `hallr_ffi_utils.py`. -/
def MeshFormat.LINE_WINDOWS : String := "∧"

/-- `MeshFormat.EDGES` in `hallr_ffi_utils.py`. -/
def MeshFormat.EDGES : String := "⸗"

/-- `MeshFormat.POINT_CLOUD` in `hallr_ffi_utils.py`. -/
def MeshFormat.POINT_CLOUD : String := "⁖"

/-- `MESH_FORMAT_TAG` in `hallr_ffi_utils.py`. -/
def MESH_FORMAT_TAG : String := "📦"

/-- `VERTEX_MERGE_TAG` in `hallr_ffi_utils.py`. -/
def VERTEX_MERGE_TAG : String := "≈"

/-- `COMMAND_TAG` in `hallr_ffi_utils.py`. -/
def COMMAND_TAG : String := "▶"

/-! ### Python dict operations

A Python `dict` preserves insertion order; setting an existing key
overwrites in place, a new key appends. -/

/-- `d[k] = v` on an insertion-ordered Python dict. -/
def dictInsert (d : List (String × String)) (k v : String) :
    List (String × String) :=
  if d.any (fun p => p.1 == k) then
    d.map (fun p => if p.1 == k then (k, v) else p)
  else d ++ [(k, v)]

/-- `d.get(k)` on a Python dict. -/
def dictGet (d : List (String × String)) (k : String) : Option String :=
  (d.find? (fun p => p.1 == k)).map (·.2)

/-! ### `_package_mesh_data` (index extraction)

Lines 181–211 of `hallr_ffi_utils.py`: the branch on `mesh_format` that
validates the topology and extracts the index buffer.  The vertex part
(lines 157–179) only copies/transforms coordinates and never fails. -/

/-- The index-buffer extraction of `_package_mesh_data`. -/
def packageMeshIndices (meshName : String) (mesh : BMesh)
    (meshFormat : String) : Except PyErr (List Nat) :=
  if meshFormat = MeshFormat.TRIANGULATED then
    if ¬ (mesh.faces.all fun face => face.length == 3) then
      .error (.hallr ("The '" ++ meshName ++ "' mesh is not fully triangulated!"))
    else if mesh.faces.length = 0 then
      .error (.hallr ("No polygons found in '" ++ meshName ++
        "', maybe the mesh is not fully triangulated?"))
    else
      .ok mesh.faces.flatten
  else if meshFormat = MeshFormat.EDGES then
    if mesh.faces.length > 0 then
      .error (.hallr ("The '" ++ meshName ++
        "' model should not contain any polygons for line operations, only edges!"))
    else
      .ok (mesh.edges.flatMap fun e => [e.1, e.2])
  else if meshFormat = MeshFormat.POINT_CLOUD then
    .ok []
  else
    .error (.hallr ("The mesh format '" ++ meshFormat ++ "' is not supported!"))

/-! ### `_unpackage_mesh_from_ffi`

Lines 214–295 of `hallr_ffi_utils.py`.  The output index buffer is
reinterpreted according to the mesh-format tag of the returned options. -/

/-- Geometry block of a native `ProcessResult`. -/
structure FfiGeometry where
  vertexCount : Nat
  indices : List Nat
deriving Repr, DecidableEq

/-- Split a flat index list into consecutive pairs (Blender's
`edges.foreach_set("vertices", ...)` layout). -/
def pairChunks : List Nat → List (Nat × Nat)
  | a :: b :: rest => (a, b) :: pairChunks rest
  | _ => []

/-- Split a flat index list into consecutive triples (triangle loops). -/
def tripleChunks : List Nat → List (List Nat)
  | a :: b :: c :: rest => [a, b, c] :: tripleChunks rest
  | _ => []

/-- The `MeshFormat.EDGES` branch (lines 267–280): `edge_count = n // 2`
pairs from the leading indices; inside the `edge_count > 0` block, an
odd length additionally prints a warning. -/
def edgesFromEdgesFmt (idx : List Nat) : List (Nat × Nat) × List String :=
  let edgeCount := idx.length / 2
  if edgeCount > 0 then
    (pairChunks (idx.take (edgeCount * 2)),
     if idx.length % 2 ≠ 0 then
       ["Warning: Length of indices is odd. The last value may not form a valid edge pair."]
     else [])
  else ([], [])

/-- The `MeshFormat.LINE_WINDOWS` branch (lines 252–265): consecutive
sliding-window pairs `(idx[k], idx[k+1])`. -/
def edgesFromLineWindows (idx : List Nat) : List (Nat × Nat) :=
  let edgeCount := idx.length - 1
  if edgeCount > 0 then idx.zip idx.tail else []

/-- `_unpackage_mesh_from_ffi`: build the new mesh from the returned
geometry, interpreting indices per the returned mesh-format tag; also
returns the warnings printed while doing so. -/
def unpackageMeshFromFFI (geo : FfiGeometry)
    (returnOptions : List (String × String)) :
    Except PyErr (BMesh × List String) :=
  match dictGet returnOptions MESH_FORMAT_TAG with
  | none => .error (.hallr "The mesh format was missing from the return data.")
  | some fmt =>
    if fmt = MeshFormat.TRIANGULATED then
      .ok ({ numVertices := geo.vertexCount,
             faces := tripleChunks geo.indices, edges := [] }, [])
    else if fmt = MeshFormat.LINE_WINDOWS then
      .ok ({ numVertices := geo.vertexCount, faces := [],
             edges := edgesFromLineWindows geo.indices }, [])
    else if fmt = MeshFormat.EDGES then
      let ew := edgesFromEdgesFmt geo.indices
      .ok ({ numVertices := geo.vertexCount, faces := [],
             edges := ew.1 }, ew.2)
    else if fmt = MeshFormat.POINT_CLOUD then
      .ok ({ numVertices := geo.vertexCount, faces := [], edges := [] }, [])
    else
      .error (.hallr ("Mesh format not recognized: " ++ fmt))

/-! ### StringMap encode / decode

Encoding (lines 571–576): `keys_list = list(config.keys())`,
`values_list = list(config.values())`, each entry UTF-8 encoded, and
`count = len(keys_list)`.  Decoding (lines 594–601): for `i in
range(count)` decode `keys[i]` and `values[i]`, raise
`HallrException(value)` if the key is the reserved `"ERROR"`, otherwise
store the pair in the `return_options` dict. -/

/-- Encoding of a ConfigMap into the parallel key/value byte arrays plus
count handed to `StringMap` (lines 571–576). -/
def encodeStringMap (config : List (String × String)) :
    List (List Nat) × List (List Nat) × Nat :=
  (config.map (fun p => utf8EncodeStr p.1),
   config.map (fun p => utf8EncodeStr p.2),
   config.length)

/-- The decode loop of lines 594–601, iterating over the raw entries
while accumulating the `return_options` dict. -/
def extractReturnOptionsLoop :
    List (List Nat × List Nat) → List (String × String) →
      Except PyErr (List (String × String))
  | [], acc => .ok acc
  | (kb, vb) :: rest, acc =>
    match utf8DecodeStr kb, utf8DecodeStr vb with
    | some k, some v =>
      if k = "ERROR" then .error (.hallr v)
      else extractReturnOptionsLoop rest (dictInsert acc k v)
    | _, _ => .error .unicode

/-- Decode the output `StringMap` of a `ProcessResult` into the
`return_options` dict, raising on the reserved error key. -/
def extractReturnOptions (entries : List (List Nat × List Nat)) :
    Except PyErr (List (String × String)) :=
  extractReturnOptionsLoop entries []

/-- Raw entry list of an encoded map: the zipped key/value byte arrays,
restricted to `count` entries (the loop reads indices `0..count-1`). -/
def rawEntries (keys values : List (List Nat)) (count : Nat) :
    List (List Nat × List Nat) :=
  (keys.take count).zip (values.take count)

/-! ### `_process_mesh_with_rust`

The stateful part: object creation and linking (lines 507–516),
packaging (lines 534–557), the native call, the `try/finally` that frees
the native result exactly once (lines 593–609), and the final
create/update application (lines 619–633).  The native engine itself is
not part of the repository; its returned `ProcessResult` is a parameter.
Python's `float(...)` and `bmesh.ops.remove_doubles` are runtime
functions, passed in as `parse` and `merge`. -/

/-- A scene object: its name and its mesh data block. -/
structure SceneObject where
  objName : String
  objData : BMesh
deriving Repr, DecidableEq

/-- The mutable state touched by `_process_mesh_with_rust`: the scene's
objects, the undo stack, the number of `free_process_results` calls made
so far, and the warnings printed. -/
structure FfiState where
  objects : List SceneObject
  undoStack : List String
  freeCalls : Nat
  warnings : List String
deriving Repr, DecidableEq

/-- A native `ProcessResult`: output geometry plus raw output map. -/
structure RustResult where
  geometry : FfiGeometry
  rawMap : List (List Nat × List Nat)
deriving Repr, DecidableEq

/-- `rust_lib.free_process_results(rust_result)` as a state effect. -/
def freeProcessResults (s : FfiState) : FfiState :=
  { s with freeCalls := s.freeCalls + 1 }

/-- Python `try body finally fin` where the body mutates state and may
raise: the body runs first, then `fin` runs on the resulting state
whether or not the body raised, and the body's outcome is propagated. -/
def tryFinally {A : Type} (body : FfiState → Except PyErr A × FfiState)
    (fin : FfiState → FfiState) (s : FfiState) :
    Except PyErr A × FfiState :=
  let r := body s
  (r.1, fin r.2)

/-- The empty mesh given to the freshly created `"New_Object"`
(line 508). -/
def emptyMesh : BMesh := { numVertices := 0, faces := [], edges := [] }

/-- `_handle_new_object` / `_update_existing_object` vertex-merge
post-process (lines 326–333 and 367–374): look up the merge-threshold
tag, parse it as a float, and weld; a `ValueError` from the parse is
caught and ignored. -/
def vertexMergePostProcess (parse : String → Option Float)
    (merge : BMesh → Float → BMesh)
    (returnOptions : List (String × String)) (mesh : BMesh) : BMesh :=
  match dictGet returnOptions VERTEX_MERGE_TAG with
  | none => mesh
  | some v =>
    match parse v with
    | none => mesh
    | some t => merge mesh t

/-- Replace the data of the named object in the scene list. -/
def setObjectData (objs : List SceneObject) (nm : String) (d : BMesh) :
    List SceneObject :=
  objs.map (fun o => if o.objName = nm then { o with objData := d } else o)

/-- Lines 593–633 of `_process_mesh_with_rust`: everything after the
native call returned `rustResult` — the `try` (decode the output map,
unpackage the mesh) with its `finally` (free the native result), then
the create/update application. -/
def processAfterCall (createNew : Bool)
    (parse : String → Option Float) (merge : BMesh → Float → BMesh)
    (primaryName : String) (rustResult : RustResult)
    (s : FfiState) : Except PyErr (Option SceneObject × String) × FfiState :=
  let inner := tryFinally
    (fun st =>
      match extractReturnOptions rustResult.rawMap with
      | .error e => (.error e, st)
      | .ok returnOptions =>
        match unpackageMeshFromFFI rustResult.geometry returnOptions with
        | .error e => (.error e, st)
        | .ok mw =>
          (.ok (returnOptions, mw.1), { st with warnings := st.warnings ++ mw.2 }))
    freeProcessResults
    s
  match inner.1 with
  | .error e => (.error e, inner.2)
  | .ok (returnOptions, newMesh) =>
    if createNew then
      let finalMesh := vertexMergePostProcess parse merge returnOptions newMesh
      let obj : SceneObject := { objName := "New_Object", objData := finalMesh }
      (.ok (some obj,
            "New mesh: vertices:" ++ toString finalMesh.numVertices ++
            " indices:" ++ toString rustResult.geometry.indices.length),
       { inner.2 with objects := setObjectData inner.2.objects "New_Object" finalMesh })
    else
      let finalMesh := vertexMergePostProcess parse merge returnOptions newMesh
      (.ok (none, "Modified mesh"),
       { inner.2 with objects := setObjectData inner.2.objects primaryName finalMesh })

/-- `_process_mesh_with_rust` (lines 479–633): optional creation and
linking of `"New_Object"` with an undo push, packaging of the primary
and secondary meshes (each may raise before any native call), the
native call (its result is the `rustResult` parameter), then
`processAfterCall`. -/
def processMeshWithRust (createNew : Bool)
    (parse : String → Option Float) (merge : BMesh → Float → BMesh)
    (primary : Option (String × BMesh × String))
    (secondary : Option (String × BMesh × String))
    (rustResult : RustResult) (s0 : FfiState) :
    Except PyErr (Option SceneObject × String) × FfiState :=
  let s1 := if createNew then
      { s0 with
        objects := s0.objects ++ [{ objName := "New_Object", objData := emptyMesh }],
        undoStack := s0.undoStack ++ ["Create New Object"] }
    else s0
  let packagedPrimary : Except PyErr (List Nat) :=
    match primary with
    | none => .ok []
    | some po => packageMeshIndices po.1 po.2.1 po.2.2
  match packagedPrimary with
  | .error e => (.error e, s1)
  | .ok _ =>
    let packagedSecondary : Except PyErr (List Nat) :=
      match secondary with
      | none => .ok []
      | some so => packageMeshIndices so.1 so.2.1 so.2.2
    match packagedSecondary with
    | .error e => (.error e, s1)
    | .ok _ =>
      let primaryName := match primary with
        | some po => po.1
        | none => ""
      processAfterCall createNew parse merge primaryName rustResult s1

/-! ### `_update_existing_object`

Lines 336–376.  The active object keeps everything but its mesh data
pointer; the old mesh data block is removed from `bpy.data.meshes` only
when, at the check, it reports zero users and no fake user.  The
`users` field below is the user count Blender reports at that check,
i.e. after the object has been re-pointed at the new mesh. -/

/-- A mesh data block in `bpy.data.meshes`. -/
structure MeshBlock where
  blockId : Nat
  users : Nat
  useFakeUser : Bool
  content : BMesh
deriving Repr, DecidableEq

/-- A host (scene) object with its identity-carrying attributes and a
pointer to its mesh data block. -/
structure HostObject where
  hostId : Nat
  hostName : String
  matrixWorld : List Int
  dataId : Nat
deriving Repr, DecidableEq

/-- The mesh data blocks held by `bpy.data.meshes`. -/
structure BlenderData where
  meshBlocks : List MeshBlock
deriving Repr, DecidableEq

/-- `_update_existing_object`: re-point the active object at the new
mesh, remove the old data block if it has no remaining users and no
fake user, then run the vertex-merge post-process on the new mesh
(its `ValueError` is caught and only logged, lines 367–374). -/
def updateExistingObject (parse : String → Option Float)
    (merge : BMesh → Float → BMesh)
    (bdata : BlenderData) (activeObj : HostObject)
    (returnOptions : List (String × String)) (newMeshId : Nat) :
    BlenderData × HostObject :=
  let oldId := activeObj.dataId
  let obj := { activeObj with dataId := newMeshId }
  let afterRemove :=
    match bdata.meshBlocks.find? (fun m => m.blockId == oldId) with
    | some old =>
      if old.users = 0 ∧ old.useFakeUser = false then
        { meshBlocks := bdata.meshBlocks.filter (fun m => m.blockId != oldId) }
      else bdata
    | none => bdata
  let afterMerge :=
    match dictGet returnOptions VERTEX_MERGE_TAG with
    | none => afterRemove
    | some v =>
      match parse v with
      | none => afterRemove
      | some t =>
        { meshBlocks := afterRemove.meshBlocks.map
            (fun m => if m.blockId == newMeshId then
              { m with content := merge m.content t } else m) }
  (afterMerge, obj)

/-! ### Helper lemmas -/

theorem flatten_length_of_all_three (fs : List (List Nat))
    (h : ∀ f ∈ fs, f.length = 3) : fs.flatten.length = 3 * fs.length := by
  induction fs with
  | nil => rfl
  | cons f fs ih =>
    simp only [List.flatten_cons, List.length_append, List.length_cons]
    rw [h f (by simp), ih (fun g hg => h g (by simp [hg]))]
    ring

theorem pairChunks_flatMap (es : List (Nat × Nat)) :
    pairChunks (es.flatMap fun e => [e.1, e.2]) = es := by
  induction es with
  | nil => rfl
  | cons e es ih =>
    rw [List.flatMap_cons]
    show pairChunks (e.1 :: e.2 :: es.flatMap fun x => [x.1, x.2]) = e :: es
    show (e.1, e.2) :: pairChunks (es.flatMap fun x => [x.1, x.2]) = e :: es
    rw [ih]

theorem pairChunks_getElem? (k : Nat) : ∀ l : List Nat,
    (pairChunks l)[k]? = l[2 * k]?.bind fun a => (l[2 * k + 1]?).map (a, ·) := by
  induction k with
  | zero =>
    intro l
    match l with
    | [] => rfl
    | [a] => rfl
    | a :: b :: rest => simp [pairChunks]
  | succ k ih =>
    intro l
    match l with
    | [] => rfl
    | [a] => rfl
    | a :: b :: rest =>
      have h1 : 2 * (k + 1) = 2 * k + 1 + 1 := by ring
      have h2 : 2 * (k + 1) + 1 = 2 * k + 1 + 1 + 1 := by ring
      simp only [pairChunks, List.getElem?_cons_succ, h1, h2, ih rest]

theorem pairChunks_length : ∀ l : List Nat,
    (pairChunks l).length = l.length / 2
  | [] => by simp [pairChunks]
  | [_] => by simp [pairChunks]
  | a :: b :: rest => by
    simp only [pairChunks, List.length_cons, pairChunks_length rest]
    omega

theorem zip_getElem? {α β : Type} (a : List α) :
    ∀ (b : List β) (k : Nat),
      (a.zip b)[k]? = a[k]?.bind fun x => (b[k]?).map (x, ·) := by
  induction a with
  | nil => intro b k; simp
  | cons x a ih =>
    intro b k
    cases b with
    | nil => simp
    | cons y b =>
      cases k with
      | zero => simp
      | succ k => simpa using ih b k

/-! ### Claims about `_package_mesh_data` -/

/-- C4: for a mesh and the TRIANGULATED format, extraction raises when
some face is not a triangle, raises when there are zero faces, and
otherwise returns an index buffer of length exactly `3 * face count`
(hence divisible by 3); the 2-triangle quad yields `[0,1,2,0,2,3]`. -/
theorem claim_C4 (meshName : String) (mesh : BMesh) :
    ((∃ f ∈ mesh.faces, f.length ≠ 3) →
      ∃ e, packageMeshIndices meshName mesh MeshFormat.TRIANGULATED
        = .error (.hallr e)) ∧
    (mesh.faces = [] →
      ∃ e, packageMeshIndices meshName mesh MeshFormat.TRIANGULATED
        = .error (.hallr e)) ∧
    ((∀ f ∈ mesh.faces, f.length = 3) → mesh.faces ≠ [] →
      ∃ idx, packageMeshIndices meshName mesh MeshFormat.TRIANGULATED = .ok idx ∧
        idx.length = 3 * mesh.faces.length ∧ idx.length % 3 = 0) ∧
    packageMeshIndices meshName
      { numVertices := 4, faces := [[0, 1, 2], [0, 2, 3]], edges := [] }
      MeshFormat.TRIANGULATED = .ok [0, 1, 2, 0, 2, 3] := by
  refine ⟨?_, ?_, ?_, ?_⟩
  case refine_4 =>
    unfold packageMeshIndices
    rw [if_pos rfl, if_neg (by decide), if_neg (by decide)]
    rfl
  · rintro ⟨f, hf, hlen⟩
    unfold packageMeshIndices
    rw [if_pos rfl, if_pos ?_]
    · exact ⟨_, rfl⟩
    · simp only [List.all_eq_true, beq_iff_eq]
      intro hcontra
      exact hlen (hcontra f hf)
  · intro hfaces
    unfold packageMeshIndices
    rw [if_pos rfl, hfaces]
    exact ⟨_, rfl⟩
  · intro hall hne
    unfold packageMeshIndices
    have h1 : (mesh.faces.all fun face => face.length == 3) = true := by
      simpa using hall
    rw [if_pos rfl, if_neg (not_not_intro h1),
        if_neg (fun h0 => hne (List.length_eq_zero.mp h0))]
    refine ⟨mesh.faces.flatten, rfl, ?_, ?_⟩
    · exact flatten_length_of_all_three mesh.faces hall
    · rw [flatten_length_of_all_three mesh.faces hall]
      simp [Nat.mul_mod_right]

theorem claim_C4_witness :
    (∃ e, packageMeshIndices "m"
      { numVertices := 4, faces := [[0, 1, 2, 3]], edges := [] }
      MeshFormat.TRIANGULATED = .error (.hallr e)) ∧
    (∃ e, packageMeshIndices "m"
      { numVertices := 0, faces := [], edges := [] }
      MeshFormat.TRIANGULATED = .error (.hallr e)) ∧
    (∃ idx, packageMeshIndices "m"
      { numVertices := 4, faces := [[0, 1, 2], [0, 2, 3]], edges := [] }
      MeshFormat.TRIANGULATED = .ok idx ∧
      idx.length = 3 * 2 ∧ idx.length % 3 = 0) :=
  ⟨(claim_C4 "m" _).1 ⟨[0, 1, 2, 3], by decide, by decide⟩,
   (claim_C4 "m" _).2.1 rfl,
   (claim_C4 "m" _).2.2.1 (by decide) (by decide)⟩

theorem flatMap_pair_length (es : List (Nat × Nat)) :
    (es.flatMap fun e => [e.1, e.2]).length = 2 * es.length := by
  induction es with
  | nil => rfl
  | cons e es ih =>
    simp only [List.flatMap_cons, List.length_append, List.length_cons,
      List.length_nil, List.length_cons, ih]
    omega

/-- C5 counterexample: a face-free one-edge mesh in LINE_WINDOWS format
does not extract successfully — `_package_mesh_data` has no
LINE_WINDOWS branch and rejects the format as unsupported. -/
theorem claim_C5_counterexample :
    ({ numVertices := 2, faces := [], edges := [(0, 1)] } : BMesh).faces = []
    ∧ packageMeshIndices "m"
        { numVertices := 2, faces := [], edges := [(0, 1)] }
        MeshFormat.LINE_WINDOWS
      = .error (.hallr "The mesh format '∧' is not supported!") := by
  exact ⟨rfl, by rfl⟩

/-- C5 (amended): for the EDGES format, extraction fails with a
validation error when the mesh contains at least one face and succeeds
on a face-free mesh with one index pair per edge; the LINE_WINDOWS
format is not accepted by extraction at all — it always fails with an
"unsupported format" error, even on a face-free mesh. -/
theorem claim_C5 (meshName : String) (mesh : BMesh) :
    (mesh.faces ≠ [] →
      ∃ e, packageMeshIndices meshName mesh MeshFormat.EDGES
        = .error (.hallr e)) ∧
    (mesh.faces = [] →
      ∃ idx, packageMeshIndices meshName mesh MeshFormat.EDGES = .ok idx ∧
        idx.length = 2 * mesh.edges.length ∧ pairChunks idx = mesh.edges) ∧
    (∃ e, packageMeshIndices meshName mesh MeshFormat.LINE_WINDOWS
      = .error (.hallr e)) := by
  refine ⟨?_, ?_, ?_⟩
  · intro hne
    unfold packageMeshIndices
    rw [if_neg (by decide), if_pos rfl, if_pos (List.length_pos.mpr hne)]
    exact ⟨_, rfl⟩
  · intro hfaces
    unfold packageMeshIndices
    rw [if_neg (by decide), if_pos rfl, if_neg (by simp [hfaces])]
    exact ⟨_, rfl, flatMap_pair_length mesh.edges, pairChunks_flatMap mesh.edges⟩
  · unfold packageMeshIndices
    rw [if_neg (by decide), if_neg (by decide), if_neg (by decide)]
    exact ⟨_, rfl⟩

theorem claim_C5_witness :
    (∃ e, packageMeshIndices "m"
      { numVertices := 3, faces := [[0, 1, 2]], edges := [] }
      MeshFormat.EDGES = .error (.hallr e)) ∧
    (∃ idx, packageMeshIndices "m"
      { numVertices := 2, faces := [], edges := [(0, 1)] }
      MeshFormat.EDGES = .ok idx ∧
      idx.length = 2 * 1 ∧ pairChunks idx = [(0, 1)]) :=
  ⟨(claim_C5 "m" _).1 (by decide), (claim_C5 "m" _).2.1 rfl⟩

/-! ### Claims about `_unpackage_mesh_from_ffi` (EDGES, LINE_WINDOWS) -/

/-- C6 counterexample: an EDGES buffer of odd length 1 produces no edges
and — contrary to the claim — no warning: `edge_count = 1 // 2 = 0`
skips the whole block including the odd-length warning, so the trailing
index is dropped silently. -/
theorem claim_C6_counterexample :
    ([0] : List Nat).length % 2 = 1 ∧ 1 ≤ ([0] : List Nat).length ∧
    edgesFromEdgesFmt [0] = ([], []) := by decide

/-- C6 (amended): for an EDGES-tagged buffer of odd length n ≥ 3,
unpacking yields `n / 2` edges from the leading pairs and emits the
odd-length warning; for the remaining odd length n = 1 it yields no
edges and no warning, silently dropping the trailing index. -/
theorem claim_C6 (idx : List Nat) (hodd : idx.length % 2 = 1) :
    (3 ≤ idx.length →
      (edgesFromEdgesFmt idx).1.length = idx.length / 2 ∧
      (∀ k, k < idx.length / 2 →
        (edgesFromEdgesFmt idx).1[k]? =
          idx[2 * k]?.bind fun a => (idx[2 * k + 1]?).map (a, ·)) ∧
      (edgesFromEdgesFmt idx).2 =
        ["Warning: Length of indices is odd. The last value may not form a valid edge pair."]) ∧
    (idx.length = 1 → edgesFromEdgesFmt idx = ([], [])) := by
  constructor
  · intro h3
    have heq : edgesFromEdgesFmt idx =
        (pairChunks (idx.take (idx.length / 2 * 2)),
         ["Warning: Length of indices is odd. The last value may not form a valid edge pair."]) := by
      simp only [edgesFromEdgesFmt]
      rw [if_pos (by omega), if_pos (by omega)]
    rw [heq]
    refine ⟨?_, ?_, rfl⟩
    · rw [pairChunks_length, List.length_take]
      omega
    · intro k hk
      rw [pairChunks_getElem?, List.getElem?_take, List.getElem?_take,
          if_pos (by omega), if_pos (by omega)]
  · intro h1
    simp only [edgesFromEdgesFmt]
    rw [if_neg (by omega)]

theorem claim_C6_witness :
    ([0, 1, 2] : List Nat).length % 2 = 1 ∧
    (edgesFromEdgesFmt [0, 1, 2]).1.length = ([0, 1, 2] : List Nat).length / 2
    ∧ (edgesFromEdgesFmt [0, 1, 2]).2 =
      ["Warning: Length of indices is odd. The last value may not form a valid edge pair."]
    ∧ edgesFromEdgesFmt [0] = ([], []) :=
  ⟨by decide,
   ((claim_C6 [0, 1, 2] (by decide)).1 (by decide)).1,
   ((claim_C6 [0, 1, 2] (by decide)).1 (by decide)).2.2,
   (claim_C6 [0] (by decide)).2 rfl⟩

/-- C7: a LINE_WINDOWS-tagged buffer of length n ≥ 2 unpacks to exactly
n−1 sliding-window edges, the k-th being `(idx[k], idx[k+1])`; for
n ≤ 1 it unpacks to no edges; `[0,1,2,3]` yields
`[(0,1),(1,2),(2,3)]`. -/
theorem claim_C7 (idx : List Nat) :
    (2 ≤ idx.length →
      (edgesFromLineWindows idx).length = idx.length - 1 ∧
      ∀ k, k < idx.length - 1 →
        (edgesFromLineWindows idx)[k]? =
          idx[k]?.bind fun a => (idx[k + 1]?).map (a, ·)) ∧
    (idx.length ≤ 1 → edgesFromLineWindows idx = []) ∧
    edgesFromLineWindows [0, 1, 2, 3] = [(0, 1), (1, 2), (2, 3)] := by
  refine ⟨?_, ?_, by decide⟩
  · intro h2
    have heq : edgesFromLineWindows idx = idx.zip idx.tail := by
      simp only [edgesFromLineWindows]
      rw [if_pos (by omega)]
    rw [heq]
    constructor
    · rw [List.length_zip, List.length_tail]
      omega
    · intro k hk
      rw [zip_getElem?, List.getElem?_tail]
  · intro h1
    simp only [edgesFromLineWindows]
    rw [if_neg (by omega)]

theorem claim_C7_witness :
    (edgesFromLineWindows [0, 1, 2, 3]).length = 3 ∧
    edgesFromLineWindows [5] = [] :=
  ⟨((claim_C7 [0, 1, 2, 3]).1 (by decide)).1,
   (claim_C7 [5]).2.1 (by decide)⟩

/-! ### Dict lemmas -/

theorem dictGet_cons (p : String × String) (d : List (String × String))
    (k : String) :
    dictGet (p :: d) k = if p.1 = k then some p.2 else dictGet d k := by
  by_cases h : p.1 = k
  · simp [dictGet, List.find?_cons, h]
  · simp [dictGet, List.find?_cons, h]

theorem dictGet_none_iff (d : List (String × String)) (k : String) :
    dictGet d k = none ↔ ∀ p ∈ d, p.1 ≠ k := by
  simp [dictGet, List.find?_eq_none]

theorem dictGet_append_none (d1 d2 : List (String × String)) (k : String)
    (h : dictGet d1 k = none) : dictGet (d1 ++ d2) k = dictGet d2 k := by
  induction d1 with
  | nil => rfl
  | cons q rest ih =>
    rw [dictGet_cons] at h
    by_cases hq : q.1 = k
    · rw [if_pos hq] at h
      cases h
    · rw [if_neg hq] at h
      rw [List.cons_append, dictGet_cons, if_neg hq]
      exact ih h

theorem dictGet_map_update_none (e k : String) (v : String) (hk : k ≠ e) :
    ∀ d : List (String × String), dictGet d e = none →
      dictGet (d.map fun p => if p.1 == k then (k, v) else p) e = none := by
  intro d
  induction d with
  | nil => intro _; rfl
  | cons q rest ih =>
    intro h
    rw [dictGet_cons] at h
    by_cases hq : q.1 = e
    · rw [if_pos hq] at h
      cases h
    · rw [if_neg hq] at h
      by_cases hqk : q.1 = k
      · have hhead : (if (q.1 == k) = true then (k, v) else q) = (k, v) := by
          simp [hqk]
        rw [List.map_cons, hhead, dictGet_cons, if_neg (show ¬((k, v).1 = e) from hk)]
        exact ih h
      · have hhead : (if (q.1 == k) = true then (k, v) else q) = q := by
          simp [hqk]
        rw [List.map_cons, hhead, dictGet_cons, if_neg hq]
        exact ih h

theorem dictInsert_dictGet_none (k v e : String) (hk : k ≠ e)
    (d : List (String × String)) (h : dictGet d e = none) :
    dictGet (dictInsert d k v) e = none := by
  unfold dictInsert
  by_cases hany : d.any (fun p => p.1 == k)
  · rw [if_pos hany]
    exact dictGet_map_update_none e k v hk d h
  · rw [if_neg hany, dictGet_append_none d _ e h, dictGet_cons, if_neg hk]
    rfl

theorem dictInsert_fresh (d : List (String × String)) (k v : String)
    (h : dictGet d k = none) : dictInsert d k v = d ++ [(k, v)] := by
  unfold dictInsert
  rw [if_neg ?_]
  rw [List.any_eq_true]
  rintro ⟨p, hp, hpk⟩
  exact (dictGet_none_iff d k).mp h p hp (by simpa using hpk)

/-! ### Decode-loop lemmas -/

theorem extractLoop_encoded_error (v : String) :
    ∀ (ps : List (String × String)) (acc : List (String × String)),
      dictGet ps "ERROR" = some v →
      extractReturnOptionsLoop
        (ps.map fun p => (utf8EncodeStr p.1, utf8EncodeStr p.2)) acc
        = .error (.hallr v) := by
  intro ps
  induction ps with
  | nil =>
    intro acc h
    cases h
  | cons p rest ih =>
    intro acc h
    obtain ⟨k, v'⟩ := p
    rw [dictGet_cons] at h
    simp only [List.map_cons, extractReturnOptionsLoop, utf8DecodeStr_encodeStr]
    by_cases hk : k = "ERROR"
    · rw [if_pos hk]
      rw [if_pos hk] at h
      cases h
      rfl
    · rw [if_neg hk]
      rw [if_neg hk] at h
      exact ih (dictInsert acc k v') h

theorem extractLoop_ok_no_err :
    ∀ (entries : List (List Nat × List Nat)) (acc m : List (String × String)),
      dictGet acc "ERROR" = none →
      extractReturnOptionsLoop entries acc = .ok m →
      dictGet m "ERROR" = none := by
  intro entries
  induction entries with
  | nil =>
    intro acc m hacc h
    simp only [extractReturnOptionsLoop, Except.ok.injEq] at h
    subst h
    exact hacc
  | cons e rest ih =>
    intro acc m hacc h
    obtain ⟨kb, vb⟩ := e
    simp only [extractReturnOptionsLoop] at h
    cases hkd : utf8DecodeStr kb with
    | none =>
      simp only [hkd] at h
      cases h
    | some k =>
      cases hvd : utf8DecodeStr vb with
      | none =>
        simp only [hkd, hvd] at h
        cases h
      | some v =>
        simp only [hkd, hvd] at h
        by_cases hk : k = "ERROR"
        · rw [if_pos hk] at h
          cases h
        · rw [if_neg hk] at h
          exact ih (dictInsert acc k v) m
            (dictInsert_dictGet_none k v "ERROR" hk acc hacc) h

theorem extractLoop_encoded_ok :
    ∀ (ps : List (String × String)) (acc : List (String × String)),
      (∀ p ∈ ps, p.1 ≠ "ERROR") →
      (∀ p ∈ ps, dictGet acc p.1 = none) →
      (ps.map Prod.fst).Nodup →
      extractReturnOptionsLoop
        (ps.map fun p => (utf8EncodeStr p.1, utf8EncodeStr p.2)) acc
        = .ok (acc ++ ps) := by
  intro ps
  induction ps with
  | nil =>
    intro acc _ _ _
    simp [extractReturnOptionsLoop]
  | cons p rest ih =>
    intro acc hne hfresh hnodup
    obtain ⟨k, v⟩ := p
    rw [List.map_cons, List.nodup_cons] at hnodup
    obtain ⟨hknotin, hnodup2⟩ := hnodup
    simp only [List.map_cons, extractReturnOptionsLoop, utf8DecodeStr_encodeStr]
    rw [if_neg (hne (k, v) (by simp))]
    rw [dictInsert_fresh acc k v (hfresh (k, v) (by simp))]
    rw [ih (acc ++ [(k, v)]) (fun q hq => hne q (by simp [hq]))
        ?_ hnodup2]
    · simp
    · intro q hq
      rw [dictGet_append_none acc _ q.1 (hfresh q (by simp [hq])),
          dictGet_cons, if_neg ?_]
      · rfl
      · intro hkq
        have hmem : q.1 ∈ List.map Prod.fst rest :=
          List.mem_map_of_mem Prod.fst hq
        rw [← hkq] at hmem
        exact hknotin hmem

theorem rawEntries_encode (config : List (String × String)) :
    rawEntries (encodeStringMap config).1 (encodeStringMap config).2.1
        (encodeStringMap config).2.2
      = config.map fun p => (utf8EncodeStr p.1, utf8EncodeStr p.2) := by
  unfold rawEntries encodeStringMap
  have htake : ∀ f : (String × String) → List Nat,
      (config.map f).take config.length = config.map f := by
    intro f
    rw [show config.length = (config.map f).length from (List.length_map _ _).symm,
        List.take_length]
  rw [htake, htake, List.zip_map']

/-! ### Claims about the error key and the StringMap codec -/

/-- C1: if the output ConfigMap carries the reserved `"ERROR"` key,
decoding the returned map raises `HallrException` with that key's value
— and the whole post-call step fails with that error whatever the
geometry counts are; conversely a successfully decoded map never
contains the error key. -/
theorem claim_C1 (ps : List (String × String)) (v : String)
    (hv : dictGet ps "ERROR" = some v) :
    extractReturnOptions (ps.map fun p => (utf8EncodeStr p.1, utf8EncodeStr p.2))
      = .error (.hallr v) ∧
    (∀ (createNew : Bool) (parse : String → Option Float)
        (merge : BMesh → Float → BMesh) (primaryName : String)
        (geo : FfiGeometry) (s : FfiState),
      (processAfterCall createNew parse merge primaryName
        ⟨geo, ps.map fun p => (utf8EncodeStr p.1, utf8EncodeStr p.2)⟩ s).1
        = .error (.hallr v)) ∧
    (∀ (entries : List (List Nat × List Nat)) (m : List (String × String)),
      extractReturnOptions entries = .ok m → dictGet m "ERROR" = none) := by
  have herr : extractReturnOptions
      (ps.map fun p => (utf8EncodeStr p.1, utf8EncodeStr p.2))
      = .error (.hallr v) :=
    extractLoop_encoded_error v ps [] hv
  refine ⟨herr, ?_, ?_⟩
  · intro createNew parse merge primaryName geo s
    unfold processAfterCall tryFinally
    rw [herr]
  · intro entries m h
    exact extractLoop_ok_no_err entries [] m rfl h

theorem claim_C1_witness :
    dictGet [("ERROR", "non-manifold mesh")] "ERROR" = some "non-manifold mesh"
    ∧ extractReturnOptions
        ([("ERROR", "non-manifold mesh")].map fun p =>
          (utf8EncodeStr p.1, utf8EncodeStr p.2))
        = .error (.hallr "non-manifold mesh") :=
  ⟨rfl, (claim_C1 [("ERROR", "non-manifold mesh")] "non-manifold mesh" rfl).1⟩

/-- C8 counterexample: the one-entry ConfigMap `{"ERROR": "x"}` encodes,
but decoding its raw arrays raises the typed error instead of
reproducing the map, so the round trip fails for maps holding the
reserved error key. -/
theorem claim_C8_counterexample :
    extractReturnOptions
      (rawEntries (encodeStringMap [("ERROR", "x")]).1
        (encodeStringMap [("ERROR", "x")]).2.1
        (encodeStringMap [("ERROR", "x")]).2.2)
      = .error (.hallr "x") ∧
    extractReturnOptions
      (rawEntries (encodeStringMap [("ERROR", "x")]).1
        (encodeStringMap [("ERROR", "x")]).2.1
        (encodeStringMap [("ERROR", "x")]).2.2) ≠ .ok [("ERROR", "x")] := by
  constructor
  · rfl
  · intro h
    rw [show extractReturnOptions
      (rawEntries (encodeStringMap [("ERROR", "x")]).1
        (encodeStringMap [("ERROR", "x")]).2.1
        (encodeStringMap [("ERROR", "x")]).2.2) = .error (.hallr "x") from rfl]
      at h
    cases h

/-- C8 (amended): for every ConfigMap with distinct keys and without the
reserved `"ERROR"` key, encoding yields parallel key/value arrays of
length n with count n whose i-th entries are the UTF-8 bytes of the
i-th inserted pair, and decoding the arrays reproduces the map
byte-for-byte; a map carrying the `"ERROR"` key instead decodes to the
typed error. -/
theorem claim_C8 (config : List (String × String))
    (hnodup : (config.map Prod.fst).Nodup)
    (hnoerr : dictGet config "ERROR" = none) :
    (encodeStringMap config).1.length = config.length ∧
    (encodeStringMap config).2.1.length = config.length ∧
    (encodeStringMap config).2.2 = config.length ∧
    (∀ i : Nat, (encodeStringMap config).1[i]?
        = (config[i]?).map (fun p => utf8EncodeStr p.1) ∧
      (encodeStringMap config).2.1[i]?
        = (config[i]?).map (fun p => utf8EncodeStr p.2)) ∧
    extractReturnOptions
      (rawEntries (encodeStringMap config).1 (encodeStringMap config).2.1
        (encodeStringMap config).2.2)
      = .ok config := by
  refine ⟨by simp [encodeStringMap], by simp [encodeStringMap],
    rfl, ?_, ?_⟩
  · intro i
    constructor
    · simp [encodeStringMap, List.getElem?_map]
    · simp [encodeStringMap, List.getElem?_map]
  · rw [rawEntries_encode]
    have h := extractLoop_encoded_ok config []
      ((dictGet_none_iff config "ERROR").mp hnoerr)
      (fun p _ => rfl) hnodup
    simpa using h

theorem claim_C8_witness :
    (encodeStringMap [("command", "convex_hull_2d")]).2.2 = 1 ∧
    extractReturnOptions
      (rawEntries (encodeStringMap [("command", "convex_hull_2d")]).1
        (encodeStringMap [("command", "convex_hull_2d")]).2.1
        (encodeStringMap [("command", "convex_hull_2d")]).2.2)
      = .ok [("command", "convex_hull_2d")] :=
  ⟨(claim_C8 [("command", "convex_hull_2d")] (by simp) rfl).2.2.1,
   (claim_C8 [("command", "convex_hull_2d")] (by simp) rfl).2.2.2.2⟩

/-! ### Claims about the native-result lifecycle and error recovery -/

theorem processAfterCall_freeCalls (createNew : Bool)
    (parse : String → Option Float) (merge : BMesh → Float → BMesh)
    (primaryName : String) (rustResult : RustResult) (s : FfiState) :
    (processAfterCall createNew parse merge primaryName rustResult s).2.freeCalls
      = s.freeCalls + 1 := by
  unfold processAfterCall tryFinally freeProcessResults
  cases hex : extractReturnOptions rustResult.rawMap with
  | error e => simp [hex]
  | ok opts =>
    cases hun : unpackageMeshFromFFI rustResult.geometry opts with
    | error e => simp [hex, hun]
    | ok mw => cases createNew <;> simp [hex, hun]

theorem processAfterCall_error_objects (createNew : Bool)
    (parse : String → Option Float) (merge : BMesh → Float → BMesh)
    (primaryName : String) (rustResult : RustResult) (s : FfiState) (e : PyErr)
    (h : (processAfterCall createNew parse merge primaryName rustResult s).1
      = .error e) :
    (processAfterCall createNew parse merge primaryName rustResult s).2.objects
      = s.objects := by
  unfold processAfterCall tryFinally freeProcessResults at h ⊢
  cases hex : extractReturnOptions rustResult.rawMap with
  | error e2 => simp [hex]
  | ok opts =>
    cases hun : unpackageMeshFromFFI rustResult.geometry opts with
    | error e2 => simp [hex, hun]
    | ok mw =>
      simp only [hex, hun] at h
      cases createNew <;> simp at h

/-- C2: once the native call has returned a `ProcessResult`, the
post-call step calls `free_process_results` exactly once on every path
— after a native-reported error map, after an unpackage failure, and on
success — and the full pipeline frees exactly once whenever packaging
succeeded; if packaging raises before the native call is reached, no
free happens at all. -/
theorem claim_C2 (createNew : Bool) (parse : String → Option Float)
    (merge : BMesh → Float → BMesh) (primaryName : String)
    (rustResult : RustResult) (s : FfiState) :
    (processAfterCall createNew parse merge primaryName rustResult s).2.freeCalls
      = s.freeCalls + 1 ∧
    (∀ (primary secondary : Option (String × BMesh × String)) (s0 : FfiState),
      (∀ po ∈ primary, ∃ idx, packageMeshIndices po.1 po.2.1 po.2.2 = .ok idx) →
      (∀ so ∈ secondary, ∃ idx, packageMeshIndices so.1 so.2.1 so.2.2 = .ok idx) →
      (processMeshWithRust createNew parse merge primary secondary rustResult
        s0).2.freeCalls = s0.freeCalls + 1) ∧
    (∀ (secondary : Option (String × BMesh × String)) (s0 : FfiState)
        (po : String × BMesh × String) (e : PyErr),
      packageMeshIndices po.1 po.2.1 po.2.2 = .error e →
      (processMeshWithRust createNew parse merge (some po) secondary rustResult
        s0).2.freeCalls = s0.freeCalls) := by
  refine ⟨processAfterCall_freeCalls createNew parse merge primaryName rustResult s,
    ?_, ?_⟩
  · intro primary secondary s0 hp hs
    unfold processMeshWithRust
    cases primary with
    | none =>
      cases secondary with
      | none =>
        rw [processAfterCall_freeCalls]
        cases createNew <;> rfl
      | some so =>
        obtain ⟨idx, hidx⟩ := hs so rfl
        simp only [hidx]
        rw [processAfterCall_freeCalls]
        cases createNew <;> rfl
    | some po =>
      obtain ⟨idx, hidx⟩ := hp po rfl
      cases secondary with
      | none =>
        simp only [hidx]
        rw [processAfterCall_freeCalls]
        cases createNew <;> rfl
      | some so =>
        obtain ⟨idx2, hidx2⟩ := hs so rfl
        simp only [hidx, hidx2]
        rw [processAfterCall_freeCalls]
        cases createNew <;> rfl
  · intro secondary s0 po e hpkg
    unfold processMeshWithRust
    simp only [hpkg]
    cases createNew <;> rfl

theorem claim_C2_witness :
    (processMeshWithRust false (fun _ => none) (fun m _ => m) none none
      { geometry := { vertexCount := 0, indices := [] }, rawMap := [] }
      { objects := [], undoStack := [], freeCalls := 0,
        warnings := [] }).2.freeCalls = 0 + 1 :=
  (claim_C2 false (fun _ => none) (fun m _ => m) ""
    { geometry := { vertexCount := 0, indices := [] }, rawMap := [] }
    { objects := [], undoStack := [], freeCalls := 0, warnings := [] }).2.1
    none none
    { objects := [], undoStack := [], freeCalls := 0, warnings := [] }
    (fun po hpo => by cases hpo) (fun so hso => by cases hso)

/-- C3 counterexample: a create-new run whose native result carries the
`"ERROR"` key fails, yet the freshly created empty `"New_Object"` is
still linked in the scene afterwards — no error-recovery step removes
it. -/
theorem claim_C3_counterexample :
    (processMeshWithRust true (fun _ => none) (fun m _ => m) none none
      { geometry := { vertexCount := 0, indices := [] },
        rawMap := [(utf8EncodeStr "ERROR", utf8EncodeStr "non-manifold mesh")] }
      { objects := [], undoStack := [], freeCalls := 0, warnings := [] }).1
      = .error (.hallr "non-manifold mesh") ∧
    ({ objName := "New_Object", objData := emptyMesh } : SceneObject) ∈
      (processMeshWithRust true (fun _ => none) (fun m _ => m) none none
        { geometry := { vertexCount := 0, indices := [] },
          rawMap := [(utf8EncodeStr "ERROR", utf8EncodeStr "non-manifold mesh")] }
        { objects := [], undoStack := [], freeCalls := 0, warnings := [] }).2.objects := by
  exact ⟨rfl, by decide⟩

/-- C3 (amended): when a create-new run fails at any step after the new
host object has been created — packaging, a native-reported error, or
unpacking — the partially created `"New_Object"` is NOT removed: the
final scene still contains it with its empty mesh (only the undo
checkpoint pushed at creation lets the user remove it, as the code's
own comment acknowledges). -/
theorem claim_C3 (parse : String → Option Float) (merge : BMesh → Float → BMesh)
    (primary secondary : Option (String × BMesh × String))
    (rustResult : RustResult) (s0 : FfiState) (e : PyErr)
    (h : (processMeshWithRust true parse merge primary secondary rustResult
      s0).1 = .error e) :
    (processMeshWithRust true parse merge primary secondary rustResult
      s0).2.objects
      = s0.objects ++ [{ objName := "New_Object", objData := emptyMesh }] := by
  unfold processMeshWithRust at h ⊢
  cases hpp : (match primary with
      | none => Except.ok ([] : List Nat)
      | some po => packageMeshIndices po.1 po.2.1 po.2.2) with
  | error e2 => simp [hpp]
  | ok idx =>
    cases hps : (match secondary with
        | none => Except.ok ([] : List Nat)
        | some so => packageMeshIndices so.1 so.2.1 so.2.2) with
    | error e2 => simp [hpp, hps]
    | ok idx2 =>
      simp only [hpp, hps] at h ⊢
      rw [processAfterCall_error_objects _ _ _ _ _ _ e h]
      simp

theorem claim_C3_witness :
    (processMeshWithRust true (fun _ => none) (fun m _ => m) none none
      { geometry := { vertexCount := 0, indices := [] },
        rawMap := [([0xFF], [0xFF])] }
      { objects := [{ objName := "keep", objData := emptyMesh }],
        undoStack := [], freeCalls := 0, warnings := [] }).2.objects
      = [{ objName := "keep", objData := emptyMesh },
         { objName := "New_Object", objData := emptyMesh }] :=
  claim_C3 (fun _ => none) (fun m _ => m) none none
    { geometry := { vertexCount := 0, indices := [] },
      rawMap := [([0xFF], [0xFF])] }
    { objects := [{ objName := "keep", objData := emptyMesh }],
      undoStack := [], freeCalls := 0, warnings := [] }
    .unicode rfl

/-- C10: when the returned options carry a vertex-merge threshold that
does not parse as a float, the `ValueError` is swallowed: the weld is
skipped, the mesh is left unwelded, and a create-mode run still
completes successfully with that unwelded mesh. -/
theorem claim_C10 (parse : String → Option Float)
    (merge : BMesh → Float → BMesh)
    (returnOptions : List (String × String)) (mesh : BMesh) (v : String)
    (hv : dictGet returnOptions VERTEX_MERGE_TAG = some v)
    (hparse : parse v = none) :
    vertexMergePostProcess parse merge returnOptions mesh = mesh ∧
    (∀ (primaryName : String) (rustResult : RustResult) (s : FfiState)
        (warns : List String),
      extractReturnOptions rustResult.rawMap = .ok returnOptions →
      unpackageMeshFromFFI rustResult.geometry returnOptions = .ok (mesh, warns) →
      ∃ msg, (processAfterCall true parse merge primaryName rustResult s).1
        = .ok (some { objName := "New_Object", objData := mesh }, msg)) := by
  have h1 : vertexMergePostProcess parse merge returnOptions mesh = mesh := by
    unfold vertexMergePostProcess
    simp only [hv, hparse]
  refine ⟨h1, ?_⟩
  intro primaryName rustResult s warns hex hun
  unfold processAfterCall tryFinally
  simp only [hex, hun, h1]
  exact ⟨_, rfl⟩

theorem claim_C10_witness :
    vertexMergePostProcess (fun _ => none) (fun m _ => m)
      [(VERTEX_MERGE_TAG, "not-a-float")]
      { numVertices := 1, faces := [], edges := [] }
      = { numVertices := 1, faces := [], edges := [] } :=
  (claim_C10 (fun _ => none) (fun m _ => m)
    [(VERTEX_MERGE_TAG, "not-a-float")]
    { numVertices := 1, faces := [], edges := [] } "not-a-float"
    rfl rfl).1

/-! ### Claim about `_update_existing_object` -/

/-- C9: update-in-place keeps the host object's identity (same id, name
and world transform) while re-pointing only its mesh data; the old mesh
data block is removed from `bpy.data.meshes` exactly when it reports
zero remaining users and no fake user, and is left in place
otherwise. -/
theorem claim_C9 (parse : String → Option Float)
    (merge : BMesh → Float → BMesh)
    (bdata : BlenderData) (activeObj : HostObject)
    (returnOptions : List (String × String)) (newMeshId : Nat)
    (old : MeshBlock)
    (hfind : bdata.meshBlocks.find? (fun m => m.blockId == activeObj.dataId)
      = some old) :
    (updateExistingObject parse merge bdata activeObj returnOptions
      newMeshId).2.hostId = activeObj.hostId ∧
    (updateExistingObject parse merge bdata activeObj returnOptions
      newMeshId).2.hostName = activeObj.hostName ∧
    (updateExistingObject parse merge bdata activeObj returnOptions
      newMeshId).2.matrixWorld = activeObj.matrixWorld ∧
    (updateExistingObject parse merge bdata activeObj returnOptions
      newMeshId).2.dataId = newMeshId ∧
    ((old.users = 0 ∧ old.useFakeUser = false) →
      ∀ m ∈ (updateExistingObject parse merge bdata activeObj returnOptions
        newMeshId).1.meshBlocks, m.blockId ≠ activeObj.dataId) ∧
    (¬ (old.users = 0 ∧ old.useFakeUser = false) →
      ∃ m ∈ (updateExistingObject parse merge bdata activeObj returnOptions
        newMeshId).1.meshBlocks, m.blockId = activeObj.dataId) := by
  have hmem : old ∈ bdata.meshBlocks := List.mem_of_find?_eq_some hfind
  have hid : old.blockId = activeObj.dataId := by
    have := List.find?_some hfind
    simpa using this
  refine ⟨rfl, rfl, rfl, rfl, ?_, ?_⟩
  · intro hcond m hm
    unfold updateExistingObject at hm
    simp only [hfind] at hm
    rw [if_pos hcond] at hm
    cases hget : dictGet returnOptions VERTEX_MERGE_TAG with
    | none =>
      simp only [hget] at hm
      have := List.of_mem_filter hm
      simpa using this
    | some v =>
      cases hp : parse v with
      | none =>
        simp only [hget, hp] at hm
        have := List.of_mem_filter hm
        simpa using this
      | some t =>
        simp only [hget, hp] at hm
        obtain ⟨m0, hm0, hm0eq⟩ := List.mem_map.mp hm
        have hfil := List.of_mem_filter hm0
        have : m.blockId = m0.blockId := by
          subst hm0eq
          by_cases hb : (m0.blockId == newMeshId) = true <;> simp [hb]
        rw [this]
        simpa using hfil
  · intro hcond
    unfold updateExistingObject
    simp only [hfind]
    rw [if_neg hcond]
    cases hget : dictGet returnOptions VERTEX_MERGE_TAG with
    | none =>
      simp only [hget]
      exact ⟨old, hmem, hid⟩
    | some v =>
      cases hp : parse v with
      | none =>
        simp only [hget, hp]
        exact ⟨old, hmem, hid⟩
      | some t =>
        simp only [hget, hp]
        refine ⟨if (old.blockId == newMeshId) = true then
          { old with content := merge old.content t } else old, ?_, ?_⟩
        · apply List.mem_map.mpr
          exact ⟨old, hmem, rfl⟩
        · by_cases hb : (old.blockId == newMeshId) = true
          · rw [if_pos hb]
            exact hid
          · rw [if_neg hb]
            exact hid

theorem claim_C9_witness :
    (updateExistingObject (fun _ => none) (fun m _ => m)
      { meshBlocks := [{ blockId := 7, users := 1, useFakeUser := false,
                         content := emptyMesh }] }
      { hostId := 1, hostName := "obj", matrixWorld := [1], dataId := 7 }
      [] 9).2.hostName = "obj" ∧
    (∃ m ∈ (updateExistingObject (fun _ => none) (fun m _ => m)
      { meshBlocks := [{ blockId := 7, users := 1, useFakeUser := false,
                         content := emptyMesh }] }
      { hostId := 1, hostName := "obj", matrixWorld := [1], dataId := 7 }
      [] 9).1.meshBlocks, m.blockId = 7) :=
  ⟨(claim_C9 (fun _ => none) (fun m _ => m)
      { meshBlocks := [{ blockId := 7, users := 1, useFakeUser := false,
                         content := emptyMesh }] }
      { hostId := 1, hostName := "obj", matrixWorld := [1], dataId := 7 }
      [] 9 { blockId := 7, users := 1, useFakeUser := false,
             content := emptyMesh } rfl).2.1,
   (claim_C9 (fun _ => none) (fun m _ => m)
      { meshBlocks := [{ blockId := 7, users := 1, useFakeUser := false,
                         content := emptyMesh }] }
      { hostId := 1, hostName := "obj", matrixWorld := [1], dataId := 7 }
      [] 9 { blockId := 7, users := 1, useFakeUser := false,
             content := emptyMesh } rfl).2.2.2.2.2 (by decide)⟩

end Hallr
